import Mathlib

/-!
Verification of the WikiScraper link-mapping core: a shallow embedding of
the graph store (src/src/graph/graph_manager.py together with the data
model of src/src/models/wiki_graph.py) and of the traversal orchestrator
(WikiService.map_page_graph and WikiService._recursive_graph_mapping in
src/src/service/wiki_service.py).

Python dictionaries are embedded as association lists (insertion order at
the tail, first-match lookup), in-place mutation as explicit state
passing, and exceptions as explicit error values: a store operation
returns the post-state graph together with an `Except` result, so that a
call that mutates the graph and then raises (as `add_link` can) is
modelled faithfully.  The Link Source (`scraper.get_page_links`) is an
external collaborator and is embedded as a function
`String → Option (List String)`, `none` standing for a raised
`WikiScraperError`.  The traversal state additionally carries a `trace`
of the titles passed to the Link Source, recording each fetch, so that
properties about how often a page is expanded are statable; the trace is
ghost state that influences nothing.
-/

/-- Open key-value metadata bag, opaque to the core (`Dict` in Python). -/
abbrev Metadata := List (String × String)

/-- `WikiNode` from src/src/models/wiki_graph.py. -/
structure WikiNode where
  title : String
  is_error : Bool := false
  metadata : Metadata := []
deriving Repr, DecidableEq

/-- `WikiEdge` from src/src/models/wiki_graph.py. -/
structure WikiEdge where
  source : String
  target : String
  rel_type : String := "LINKS_TO"
  metadata : Metadata := []
deriving Repr, DecidableEq

/-- `WikiGraph` from src/src/models/wiki_graph.py.  The `nodes` dict is an
association list keyed by title; `edges` is the ordered edge list. -/
structure WikiGraph where
  nodes : List (String × WikiNode) := []
  edges : List WikiEdge := []
  root_title : Option String := none
  total_nodes : Nat := 0
  error_count : Nat := 0
  max_depth_explored : Nat := 0
deriving Repr, DecidableEq

/-- First-match association-list lookup (the embedding of `title in
graph.nodes` / `graph.nodes[title]`). -/
def lookupNode : List (String × WikiNode) → String → Option WikiNode
  | [], _ => none
  | (k, v) :: rest, t => if k = t then some v else lookupNode rest t

/-- `WikiGraph.get_node`: pure lookup of a node by title. -/
def WikiGraph.get_node (g : WikiGraph) (title : String) : Option WikiNode :=
  lookupNode g.nodes title

/-- The exception taxonomy of src/src/errors/graph.py. -/
inductive GraphError where
  | invalidTitleError (msg : String)
  | nodeError (msg : String)
  | relationshipError (msg : String)
  | graphCreationError (msg : String)
deriving Repr, DecidableEq

/-- The service-level exception taxonomy of src/src/errors/service.py.
`pageMappingServiceError` carries the wrapped original cause (the
`from e` chain in Python), `none` when there is no underlying cause. -/
inductive ServiceError where
  | searchServiceError (msg : String)
  | pageContentServiceError (msg : String)
  | pageMappingServiceError (msg : String) (cause : Option GraphError)
deriving Repr, DecidableEq

/-- `GraphManager.add_node` (graph_manager.py lines 49-91).  Validates the
title, returns the existing node unchanged when the title is present,
otherwise inserts a fresh node and bumps the counters.  Returns the
post-state graph alongside the result. -/
def add_node (g : WikiGraph) (title : String) (is_error : Bool := false)
    (metadata : Metadata := []) : WikiGraph × Except GraphError WikiNode :=
  if title = "" then
    (g, .error (.invalidTitleError ("Invalid node title: " ++ title)))
  else
    match lookupNode g.nodes title with
    | some n => (g, .ok n)
    | none =>
      let node : WikiNode := { title := title, is_error := is_error, metadata := metadata }
      ({ g with
          nodes := g.nodes ++ [(title, node)],
          total_nodes := g.total_nodes + 1,
          error_count := g.error_count + (if is_error then 1 else 0) },
       .ok node)

/-- `GraphManager.create_graph` (graph_manager.py lines 21-47). -/
def create_graph (root_title : String) : Except GraphError WikiGraph :=
  if root_title = "" then
    .error (.invalidTitleError ("Invalid root title: " ++ root_title))
  else
    let g0 : WikiGraph := { root_title := some root_title }
    match add_node g0 root_title with
    | (g, .ok _) => .ok g
    | (_, .error _) =>
      .error (.graphCreationError ("Failed to create graph with root '" ++ root_title ++ "'"))

/-- `GraphManager.add_relationship` (graph_manager.py lines 93-149).
Validates both endpoint titles, requires both endpoint nodes to exist,
then appends a new edge without any deduplication. -/
def add_relationship (g : WikiGraph) (source_title target_title : String)
    ( rel_type : String := "LINKS_TO") (metadata : Metadata := []) :
    WikiGraph × Except GraphError WikiEdge :=
  if source_title = "" then
    (g, .error (.invalidTitleError ("Invalid source title: " ++ source_title)))
  else if target_title = "" then
    (g, .error (.invalidTitleError ("Invalid target title: " ++ target_title)))
  else if (lookupNode g.nodes source_title).isNone then
    (g, .error (.nodeError ("Source node '" ++ source_title ++ "' not found in graph")))
  else if (lookupNode g.nodes target_title).isNone then
    (g, .error (.nodeError ("Target node '" ++ target_title ++ "' not found in graph")))
  else
    let edge : WikiEdge :=
      { source := source_title, target := target_title, rel_type := rel_type, metadata := metadata }
    ({ g with edges := g.edges ++ [edge] }, .ok edge)

/-- `GraphManager.add_link` (graph_manager.py lines 151-175): ensure the
target node exists, then record a `LINKS_TO` relationship.  When
`add_relationship` raises after `add_node` already inserted the target,
the node insertion persists — hence the post-state is returned even on
error. -/
def add_link (g : WikiGraph) (source_title target_title : String) :
    WikiGraph × Option GraphError :=
  match add_node g target_title with
  | (g1, .error e) => (g1, some e)
  | (g1, .ok _) =>
    match add_relationship g1 source_title target_title "LINKS_TO" with
    | (g2, .error e) => (g2, some e)
    | (g2, .ok _) => (g2, none)

/-- `GraphManager.add_error_node` (graph_manager.py lines 177-199): insert
the synthetic error-marker node and the `ERROR` edge from the source. -/
def add_error_node (g : WikiGraph) (source_title : String) :
    WikiGraph × Option GraphError :=
  let error_title := "[ERROR] " ++ source_title
  match add_node g error_title true with
  | (g1, .error e) => (g1, some e)
  | (g1, .ok _) =>
    match add_relationship g1 source_title error_title "ERROR" with
    | (g2, .error e) => (g2, some e)
    | (g2, .ok _) => (g2, none)

/-- `GraphManager.update_metrics` (graph_manager.py lines 201-213). -/
def update_metrics (g : WikiGraph) (depth : Nat) : WikiGraph :=
  { g with max_depth_explored := max g.max_depth_explored depth }

/-- One store operation, for stating invariants over arbitrary operation
sequences on a graph. -/
inductive Op where
  | opAddNode (title : String) (is_error : Bool) (metadata : Metadata)
  | opAddRelationship (source target rel : String) (metadata : Metadata)
  | opAddLink (source target : String)
  | opAddErrorNode (source : String)
  | opUpdateMetrics (depth : Nat)
deriving Repr, DecidableEq

/-- Apply one store operation, keeping the post-state graph whether or not
the operation raised (a raising operation leaves exactly the mutations it
performed before raising, as in Python). -/
def applyOp (g : WikiGraph) : Op → WikiGraph
  | .opAddNode t e m => (add_node g t e m).1
  | .opAddRelationship s t r m => (add_relationship g s t r m).1
  | .opAddLink s t => (add_link g s t).1
  | .opAddErrorNode s => (add_error_node g s).1
  | .opUpdateMetrics d => update_metrics g d

/-- Run a sequence of store operations. -/
def runOps (g : WikiGraph) (ops : List Op) : WikiGraph :=
  ops.foldl applyOp g

/-- Graph states reachable from `create_graph` through any sequence of
store operations. -/
inductive Reached : WikiGraph → Prop where
  | created : ∀ root g, create_graph root = .ok g → Reached g
  | step : ∀ g op, Reached g → Reached (applyOp g op)

/-- The state threaded through the recursive exploration: the graph under
construction, the shared exploration-visited set (most recent first), and
the ghost trace of titles passed to the Link Source. -/
structure CrawlState where
  graph : WikiGraph
  visited : List String
  trace : List String
deriving Repr, DecidableEq

mutual

/-- `WikiService._recursive_graph_mapping` (wiki_service.py lines
328-384).  `fetch` is the Link Source; `none` is a raised
`WikiScraperError`.  Returns the post-state and the escaping graph-layer
exception, if any. -/
def recursive_graph_mapping (fetch : String → Option (List String))
    (include_errors : Bool) (max_depth : Nat) (current_title : String)
    (st : CrawlState) (current_depth : Nat) : CrawlState × Option GraphError :=
  if max_depth < current_depth then (st, none)
  else if current_title ∈ st.visited then (st, none)
  else
    let st1 : CrawlState :=
      { graph := update_metrics st.graph current_depth,
        visited := current_title :: st.visited,
        trace := st.trace ++ [current_title] }
    match fetch current_title with
    | none =>
      if include_errors then
        match add_error_node st1.graph current_title with
        | (g, r) => ({ st1 with graph := g }, r)
      else (st1, none)
    | some links =>
      mapping_links fetch include_errors max_depth current_title current_depth links st1
termination_by (max_depth + 1 - current_depth, 1, 0)

/-- The `for link_title in links` loop body of
`_recursive_graph_mapping`: record each link via the store, recursing
into unvisited targets while below the depth bound; a graph-layer
exception aborts the loop and propagates. -/
def mapping_links (fetch : String → Option (List String))
    (include_errors : Bool) (max_depth : Nat) (current_title : String)
    (current_depth : Nat) (links : List String) (st : CrawlState) :
    CrawlState × Option GraphError :=
  match links with
  | [] => (st, none)
  | link_title :: rest =>
    match add_link st.graph current_title link_title with
    | (g, some e) => ({ st with graph := g }, some e)
    | (g, none) =>
      let st1 : CrawlState := { st with graph := g }
      if link_title ∉ st1.visited ∧ current_depth < max_depth then
        match recursive_graph_mapping fetch include_errors max_depth link_title st1
            (current_depth + 1) with
        | (st2, some e) => (st2, some e)
        | (st2, none) =>
          mapping_links fetch include_errors max_depth current_title current_depth rest st2
      else
        mapping_links fetch include_errors max_depth current_title current_depth rest st1
termination_by (max_depth + 1 - current_depth, 0, links.length)

end

/-- `WikiService.map_page_graph` (wiki_service.py lines 282-326): the sole
public entry point.  `max_depth` is an integer; values below 1 are
rejected before any work.  Every exception escaping graph creation or the
recursive exploration is re-raised as `pageMappingServiceError` wrapping
the original cause. -/
def map_page_graph (fetch : String → Option (List String)) (root_title : String)
    (max_depth : Int) (include_errors : Bool := false) :
    Except ServiceError WikiGraph :=
  if max_depth < 1 then
    .error (.pageMappingServiceError "Depth must be at least 1" none)
  else
    match create_graph root_title with
    | .error e => .error (.pageMappingServiceError "Page mapping failed" (some e))
    | .ok graph =>
      match recursive_graph_mapping fetch include_errors max_depth.toNat root_title
          { graph := graph, visited := [], trace := [] } 1 with
      | (_, some e) => .error (.pageMappingServiceError "Page mapping failed" (some e))
      | (st, none) => .ok st.graph

/-- The structural invariant the graph store maintains: node bookkeeping
(`total_nodes` counts the node entries), validity and uniqueness of node
keys, edge-endpoint closure, and error bookkeeping (`error_count` counts
the `is_error` nodes). -/
structure StoreInv (g : WikiGraph) : Prop where
  count_eq : g.total_nodes = g.nodes.length
  keys_ne : ∀ p ∈ g.nodes, p.1 ≠ ""
  keys_nodup : (g.nodes.map Prod.fst).Nodup
  edges_closed : ∀ e ∈ g.edges, (g.get_node e.source).isSome ∧ (g.get_node e.target).isSome
  err_eq : g.error_count = (g.nodes.filter (fun p => p.2.is_error)).length

/-- The explicit one-node graph that `create_graph` returns on success. -/
def rootGraph (root : String) : WikiGraph :=
  { nodes := [(root, { title := root })], edges := [], root_title := some root,
    total_nodes := 1, error_count := 0, max_depth_explored := 0 }

def graphX : WikiGraph :=
  { nodes := [("X", { title := "X" })], root_title := some "X", total_nodes := 1 }

def graphXY : WikiGraph := applyOp graphX (.opAddLink "X" "Y")

def graphXErr : WikiGraph := applyOp graphX (.opAddErrorNode "X")

/-- The state after the visit mark, metrics update and fetch trace. -/
def markState (t : String) (st : CrawlState) (d : Nat) : CrawlState :=
  { graph := update_metrics st.graph d,
    visited := t :: st.visited,
    trace := st.trace ++ [t] }

/-- The titles an operation passes to the store's node-adding code path
(`add_node`, directly or from inside `add_link` / `add_error_node`). -/
def opNodeTitles : Op → List String
  | .opAddNode t _ _ => [t]
  | .opAddRelationship _ _ _ _ => []
  | .opAddLink _ t => [t]
  | .opAddErrorNode s => ["[ERROR] " ++ s]
  | .opUpdateMetrics _ => []

/-- A Link Source that reports an empty link title on every page: the
empty title makes the store raise `InvalidTitleError` inside the
exploration. -/
def emptyLinkFetch : String → Option (List String) := fun _ => some [""]

/-- What one exploration call guarantees about the evolution from state
`st` to state `st'`: the graph only grows (keys and edges), the visited
set only grows, the fetch trace grows in lockstep with the visited set
(each fetch corresponds to exactly one marking), freedom from duplicates
is preserved, and every page newly marked visited whose fetch succeeded
has all its outgoing `LINKS_TO` edges recorded. -/
structure CrawlPost (fetch : String → Option (List String)) (st st' : CrawlState) : Prop where
  nodes_mono : ∀ u, (st.graph.get_node u).isSome → (st'.graph.get_node u).isSome
  edges_mono : ∀ e ∈ st.graph.edges, e ∈ st'.graph.edges
  visited_mono : ∀ u ∈ st.visited, u ∈ st'.visited
  count_eq : ∀ u, st'.trace.count u + st.visited.count u =
    st.trace.count u + st'.visited.count u
  nodup : st.visited.Nodup → st'.visited.Nodup
  expanded : ∀ u ∈ st'.visited, u ∉ st.visited →
    ∀ lu, fetch u = some lu → ∀ v ∈ lu,
      ({ source := u, target := v, rel_type := "LINKS_TO", metadata := [] } : WikiEdge)
        ∈ st'.graph.edges

/-- The minimal two-page cyclic Link Source used as a concrete witness. -/
def cycleFetch : String → Option (List String) := fun t =>
  if t = "X" then some ["Y"] else if t = "Y" then some ["X"] else some []

/-- The concrete two-link Link Source used as a witness for the depth-1
base case. -/
def depthOneFetch : String → Option (List String) := fun t =>
  if t = "root" then some ["A", "B"] else some []

/-- The concrete failing Link Source used as a witness for the error-node
policy. -/
def failingFetch : String → Option (List String) := fun t =>
  if t = "R" then some ["P"] else none

/-! ### Lookup lemmas for the association-list embedding of the nodes dict -/

theorem lookupNode_append (l1 l2 : List (String × WikiNode)) (t : String) :
    lookupNode (l1 ++ l2) t =
      match lookupNode l1 t with
      | some v => some v
      | none => lookupNode l2 t := by
  induction l1 with
  | nil => simp [lookupNode]
  | cons p rest ih =>
    by_cases h : p.1 = t
    · simp [lookupNode, h]
    · simp [lookupNode, h, ih]

theorem lookupNode_isSome_iff (l : List (String × WikiNode)) (t : String) :
    (lookupNode l t).isSome ↔ t ∈ l.map Prod.fst := by
  induction l with
  | nil => simp [lookupNode]
  | cons p rest ih =>
    by_cases h : p.1 = t
    · simp [lookupNode, h]
    · simp [lookupNode, h, ih, Ne.symm h]

theorem lookupNode_eq_none_iff (l : List (String × WikiNode)) (t : String) :
    lookupNode l t = none ↔ t ∉ l.map Prod.fst := by
  rw [← lookupNode_isSome_iff, Option.isSome_iff_exists]
  cases lookupNode l t <;> simp

theorem lookupNode_append_of_isSome (l1 l2 : List (String × WikiNode)) (t : String)
    (h : (lookupNode l1 t).isSome) : lookupNode (l1 ++ l2) t = lookupNode l1 t := by
  rw [lookupNode_append]
  cases hv : lookupNode l1 t
  · rw [hv] at h; simp at h
  · simp

theorem lookupNode_append_of_none (l1 l2 : List (String × WikiNode)) (t : String)
    (h : lookupNode l1 t = none) : lookupNode (l1 ++ l2) t = lookupNode l2 t := by
  rw [lookupNode_append, h]

theorem lookupNode_mem_keys {l : List (String × WikiNode)} {t : String} {n : WikiNode}
    (h : lookupNode l t = some n) : t ∈ l.map Prod.fst := by
  rw [← lookupNode_isSome_iff, h]; rfl

/-! ### The structural store invariant -/


/-- `add_node` either leaves the graph unchanged (invalid title, or the
title already present) or inserts exactly one new node at the tail. -/
theorem add_node_cases (g : WikiGraph) (t : String) (e : Bool) (m : Metadata) :
    (add_node g t e m).1 = g ∨
      (t ≠ "" ∧ lookupNode g.nodes t = none ∧
        (add_node g t e m).1 =
          { g with
              nodes := g.nodes ++ [(t, { title := t, is_error := e, metadata := m })],
              total_nodes := g.total_nodes + 1,
              error_count := g.error_count + (if e then 1 else 0) }) := by
  unfold add_node
  by_cases ht : t = ""
  · simp [ht]
  · cases hl : lookupNode g.nodes t
    · right; simp [ht, hl]
    · left; simp [ht, hl]

theorem storeInv_add_node {g : WikiGraph} (h : StoreInv g) (t : String) (e : Bool)
    (m : Metadata) : StoreInv (add_node g t e m).1 := by
  rcases add_node_cases g t e m with heq | ⟨ht, hnone, heq⟩
  · rw [heq]; exact h
  · rw [heq]
    constructor
    · simp [h.count_eq]
    · intro p hp
      rcases List.mem_append.mp hp with hmem | hmem
      · exact h.keys_ne p hmem
      · simp at hmem; subst hmem; exact ht
    · rw [List.map_append]
      refine h.keys_nodup.append (by simp) ?_
      intro a ha hb
      simp at hb; subst hb
      exact (lookupNode_eq_none_iff _ _).mp hnone ha
    · intro edge hedge
      have hc := h.edges_closed edge hedge
      constructor
      · show (lookupNode (g.nodes ++ _) edge.source).isSome
        rw [lookupNode_append_of_isSome _ _ _ hc.1]; exact hc.1
      · show (lookupNode (g.nodes ++ _) edge.target).isSome
        rw [lookupNode_append_of_isSome _ _ _ hc.2]; exact hc.2
    · simp [List.filter_append, h.err_eq]
      cases e <;> simp

/-- `add_relationship` either leaves the graph unchanged (a validation or
existence failure) or appends exactly the requested edge. -/
theorem add_relationship_cases (g : WikiGraph) (s t r : String) (m : Metadata) :
    (add_relationship g s t r m).1 = g ∨
      ((g.get_node s).isSome ∧ (g.get_node t).isSome ∧
        (add_relationship g s t r m).1 =
          { g with edges := g.edges ++ [{ source := s, target := t, rel_type := r, metadata := m }] }) := by
  unfold add_relationship
  by_cases hs : s = ""
  · simp [hs]
  · by_cases ht : t = ""
    · simp [hs, ht]
    · by_cases hls : (lookupNode g.nodes s).isNone
      · simp [hs, ht, hls]
      · by_cases hlt : (lookupNode g.nodes t).isNone
        · simp [hs, ht, hls, hlt]
        · right
          refine ⟨?_, ?_, by simp [hs, ht, hls, hlt]⟩
          · show (lookupNode g.nodes s).isSome
            simpa [Option.isNone_iff_eq_none, Option.isSome_iff_ne_none] using hls
          · show (lookupNode g.nodes t).isSome
            simpa [Option.isNone_iff_eq_none, Option.isSome_iff_ne_none] using hlt

theorem storeInv_add_relationship {g : WikiGraph} (h : StoreInv g) (s t r : String)
    (m : Metadata) : StoreInv (add_relationship g s t r m).1 := by
  rcases add_relationship_cases g s t r m with heq | ⟨hs, ht, heq⟩
  · rw [heq]; exact h
  · rw [heq]
    constructor
    · exact h.count_eq
    · exact h.keys_ne
    · exact h.keys_nodup
    · intro edge hedge
      rcases List.mem_append.mp hedge with hmem | hmem
      · exact h.edges_closed edge hmem
      · simp at hmem; subst hmem; exact ⟨hs, ht⟩
    · exact h.err_eq

theorem storeInv_add_link {g : WikiGraph} (h : StoreInv g) (s t : String) :
    StoreInv (add_link g s t).1 := by
  rcases h1 : add_node g t with ⟨g1, r1⟩
  have hg1 : StoreInv g1 := by
    have := storeInv_add_node h t false []
    rwa [h1] at this
  cases r1 with
  | error e => simpa [add_link, h1] using hg1
  | ok n =>
    rcases h2 : add_relationship g1 s t "LINKS_TO" with ⟨g2, r2⟩
    have hg2 : StoreInv g2 := by
      have := storeInv_add_relationship hg1 s t "LINKS_TO" []
      rwa [h2] at this
    cases r2 <;> simpa [add_link, h1, h2] using hg2

theorem storeInv_add_error_node {g : WikiGraph} (h : StoreInv g) (s : String) :
    StoreInv (add_error_node g s).1 := by
  rcases h1 : add_node g ("[ERROR] " ++ s) true with ⟨g1, r1⟩
  have hg1 : StoreInv g1 := by
    have := storeInv_add_node h ("[ERROR] " ++ s) true []
    rwa [h1] at this
  cases r1 with
  | error e => simpa [add_error_node, h1] using hg1
  | ok n =>
    rcases h2 : add_relationship g1 s ("[ERROR] " ++ s) "ERROR" with ⟨g2, r2⟩
    have hg2 : StoreInv g2 := by
      have := storeInv_add_relationship hg1 s ("[ERROR] " ++ s) "ERROR" []
      rwa [h2] at this
    cases r2 <;> simpa [add_error_node, h1, h2] using hg2

theorem storeInv_update_metrics {g : WikiGraph} (h : StoreInv g) (d : Nat) :
    StoreInv (update_metrics g d) := by
  exact { count_eq := h.count_eq, keys_ne := h.keys_ne, keys_nodup := h.keys_nodup,
          edges_closed := h.edges_closed, err_eq := h.err_eq }

theorem storeInv_applyOp {g : WikiGraph} (h : StoreInv g) (op : Op) :
    StoreInv (applyOp g op) := by
  cases op with
  | opAddNode t e m => exact storeInv_add_node h t e m
  | opAddRelationship s t r m => exact storeInv_add_relationship h s t r m
  | opAddLink s t => exact storeInv_add_link h s t
  | opAddErrorNode s => exact storeInv_add_error_node h s
  | opUpdateMetrics d => exact storeInv_update_metrics h d


/-- A successfully created graph is the explicit one-node root graph. -/
theorem create_graph_ok {root : String} (h : root ≠ "") :
    create_graph root = .ok (rootGraph root) := by
  simp [create_graph, add_node, h, lookupNode, rootGraph]

theorem storeInv_create {root : String} {g : WikiGraph}
    (h : create_graph root = .ok g) : StoreInv g := by
  by_cases hr : root = ""
  · simp [create_graph, hr] at h
  · rw [create_graph_ok hr] at h
    injection h with h
    subst h
    constructor
    · rfl
    · intro p hp; simp [rootGraph] at hp; subst hp; exact hr
    · simp [rootGraph]
    · intro e he; simp [rootGraph] at he
    · rfl

theorem reached_storeInv {g : WikiGraph} (h : Reached g) : StoreInv g := by
  induction h with
  | created root g hc => exact storeInv_create hc
  | step g op _ ih => exact storeInv_applyOp ih op

/-- The error-marker title is never the empty string. -/
theorem error_title_ne_empty (s : String) : "[ERROR] " ++ s ≠ "" := by
  intro h
  have h2 := congrArg String.length h
  simp [String.length_append] at h2
  exact absurd h2.1 (by decide)

/-- The error-marker title of a page differs from the page title itself. -/
theorem error_title_ne_self (s : String) : "[ERROR] " ++ s ≠ s := by
  intro h
  have h2 := congrArg String.length h
  simp [String.length_append] at h2
  exact absurd h2 (by decide)

/-- Adding a title already stored in the graph returns the stored node and
leaves the graph untouched (the title of a stored node is never empty in
a store-maintained graph, so the validity check passes). -/
theorem add_node_existing {g : WikiGraph} (h : StoreInv g) {t : String} {n : WikiNode}
    (hn : g.get_node t = some n) (e : Bool) (m : Metadata) :
    add_node g t e m = (g, .ok n) := by
  have hne : t ≠ "" := by
    have hmem := lookupNode_mem_keys (show lookupNode g.nodes t = some n from hn)
    rcases List.mem_map.mp hmem with ⟨p, hp, hq⟩
    subst hq
    exact h.keys_ne p hp
  have hl : lookupNode g.nodes t = some n := hn
  simp [add_node, hne, hl]

/-! ### Shared concrete store states for witnesses -/


theorem graphX_reached : Reached graphX :=
  Reached.created "X" graphX (by rw [create_graph_ok (by decide)]; rfl)


theorem graphXY_reached : Reached graphXY :=
  Reached.step graphX (.opAddLink "X" "Y") graphX_reached


theorem graphXErr_reached : Reached graphXErr :=
  Reached.step graphX (.opAddErrorNode "X") graphX_reached

/-- C4: for every root title and every `max_depth < 1`, `map` fails with
`PageMappingServiceError` before any node is created: the result is the
depth-validation error with no wrapped cause, and it is the same for
every Link Source — so no graph is created or returned and no fetch
occurs. -/
theorem claim_C4 (fetch : String → Option (List String)) (root_title : String)
    (max_depth : Int) (include_errors : Bool) (h : max_depth < 1) :
    map_page_graph fetch root_title max_depth include_errors =
      .error (.pageMappingServiceError "Depth must be at least 1" none) := by
  simp [map_page_graph, h]

theorem claim_C4_witness :
    map_page_graph (fun _ => some ["A"]) "X" 0 false =
      .error (.pageMappingServiceError "Depth must be at least 1" none) :=
  claim_C4 (fun _ => some ["A"]) "X" 0 false (by decide)

/-- C6: adding a title already present in a store-maintained graph (with
any `is_error` or `metadata` arguments) returns the node already stored
under that title and changes nothing: the returned graph is the very same
graph, so `total_nodes`, `error_count`, the stored flag and the stored
metadata are all unchanged. -/
theorem claim_C6 (g : WikiGraph) (h : Reached g) (t : String) (n : WikiNode)
    (hn : g.get_node t = some n) (e : Bool) (m : Metadata) :
    add_node g t e m = (g, .ok n) :=
  add_node_existing (reached_storeInv h) hn e m

theorem claim_C6_witness :
    add_node graphX "X" true [("k", "v")] = (graphX, .ok { title := "X" }) :=
  claim_C6 graphX graphX_reached "X" { title := "X" } (by decide) true [("k", "v")]

/-- C7: `add_relationship` fails with `InvalidTitleError` when either
endpoint title is empty (the source is checked first; non-string titles
do not exist in this typed embedding), fails with `NodeError` when either
endpoint is absent from the nodes, and otherwise appends exactly the one
new edge and returns it, with no deduplication: a second identical call
appends a second, parallel edge. -/
theorem claim_C7 (g : WikiGraph) (s t r : String) (m : Metadata) :
    (s = "" → ∃ msg, add_relationship g s t r m = (g, .error (.invalidTitleError msg))) ∧
    (s ≠ "" → t = "" → ∃ msg, add_relationship g s t r m = (g, .error (.invalidTitleError msg))) ∧
    (s ≠ "" → t ≠ "" → g.get_node s = none →
      ∃ msg, add_relationship g s t r m = (g, .error (.nodeError msg))) ∧
    (s ≠ "" → t ≠ "" → (g.get_node s).isSome → g.get_node t = none →
      ∃ msg, add_relationship g s t r m = (g, .error (.nodeError msg))) ∧
    ((g.get_node s).isSome → (g.get_node t).isSome → s ≠ "" → t ≠ "" →
      add_relationship g s t r m =
        ({ g with edges := g.edges ++ [{ source := s, target := t, rel_type := r, metadata := m }] },
          .ok { source := s, target := t, rel_type := r, metadata := m }) ∧
      (add_relationship (add_relationship g s t r m).1 s t r m).1.edges =
        g.edges ++ [{ source := s, target := t, rel_type := r, metadata := m },
                    { source := s, target := t, rel_type := r, metadata := m }]) := by
  refine ⟨?_, ?_, ?_, ?_, ?_⟩
  · intro hs
    exact ⟨"Invalid source title: " ++ s, by simp [add_relationship, hs]⟩
  · intro hs ht
    exact ⟨"Invalid target title: " ++ t, by simp [add_relationship, hs, ht]⟩
  · intro hs ht hl
    refine ⟨"Source node '" ++ s ++ "' not found in graph", ?_⟩
    have hl' : lookupNode g.nodes s = none := hl
    simp [add_relationship, hs, ht, hl']
  · intro hs ht hls hlt
    refine ⟨"Target node '" ++ t ++ "' not found in graph", ?_⟩
    have hlt' : lookupNode g.nodes t = none := hlt
    have hls' : ¬(lookupNode g.nodes s).isNone := by
      show ¬(g.get_node s).isNone
      simp [Option.isNone_iff_eq_none, Option.isSome_iff_ne_none] at hls ⊢
      exact hls
    simp [add_relationship, hs, ht, hls', hlt']
  · intro hls hlt hs ht
    have hls' : ¬(lookupNode g.nodes s).isNone := by
      show ¬(g.get_node s).isNone
      simp [Option.isNone_iff_eq_none, Option.isSome_iff_ne_none] at hls ⊢
      exact hls
    have hlt' : ¬(lookupNode g.nodes t).isNone := by
      show ¬(g.get_node t).isNone
      simp [Option.isNone_iff_eq_none, Option.isSome_iff_ne_none] at hlt ⊢
      exact hlt
    have h1 : add_relationship g s t r m =
        ({ g with edges := g.edges ++ [{ source := s, target := t, rel_type := r, metadata := m }] },
          .ok { source := s, target := t, rel_type := r, metadata := m }) := by
      simp [add_relationship, hs, ht, hls', hlt']
    refine ⟨h1, ?_⟩
    rw [h1]
    simp [add_relationship, hs, ht] at hls' hlt' ⊢
    simp [show lookupNode g.nodes s ≠ none from hls', show lookupNode g.nodes t ≠ none from hlt']

theorem claim_C7_witness :
    add_relationship graphX "X" "X" "REL" [] =
      ({ graphX with edges := [{ source := "X", target := "X", rel_type := "REL", metadata := [] }] },
        .ok { source := "X", target := "X", rel_type := "REL", metadata := [] }) ∧
    (add_relationship (add_relationship graphX "X" "X" "REL" []).1 "X" "X" "REL" []).1.edges =
      [{ source := "X", target := "X", rel_type := "REL", metadata := [] },
       { source := "X", target := "X", rel_type := "REL", metadata := [] }] :=
  (claim_C7 graphX "X" "X" "REL" []).2.2.2.2 (by decide) (by decide) (by decide) (by decide)

/-- C8: in every graph state reachable from `create_graph` through any
sequence of store operations, both endpoints of every edge are present as
node keys. -/
theorem claim_C8 (g : WikiGraph) (h : Reached g) :
    ∀ e ∈ g.edges, (g.get_node e.source).isSome ∧ (g.get_node e.target).isSome :=
  (reached_storeInv h).edges_closed

theorem claim_C8_witness :
    (graphXY.get_node "X").isSome ∧ (graphXY.get_node "Y").isSome :=
  claim_C8 graphXY graphXY_reached
    { source := "X", target := "Y", rel_type := "LINKS_TO", metadata := [] } (by decide)

/-- C10: in every reachable graph state, `error_count` equals the number
of stored nodes whose `is_error` flag is true; moreover re-adding an
existing title with any `is_error` argument changes neither the counter
nor the stored node. -/
theorem claim_C10 (g : WikiGraph) (h : Reached g) :
    g.error_count = (g.nodes.filter (fun p => p.2.is_error)).length ∧
    (∀ t e m n, g.get_node t = some n →
      (add_node g t e m).1.error_count = g.error_count ∧
      (add_node g t e m).1.get_node t = some n) := by
  refine ⟨(reached_storeInv h).err_eq, ?_⟩
  intro t e m n hn
  rw [add_node_existing (reached_storeInv h) hn e m]
  exact ⟨rfl, hn⟩

theorem claim_C10_witness :
    graphXErr.error_count = (graphXErr.nodes.filter (fun p => p.2.is_error)).length :=
  (claim_C10 graphXErr graphXErr_reached).1

/-! ### Branch equations for the recursive exploration -/

theorem recMap_eq_depth (fetch : String → Option (List String)) (incl : Bool)
    (maxd : Nat) (t : String) (st : CrawlState) (d : Nat) (h : maxd < d) :
    recursive_graph_mapping fetch incl maxd t st d = (st, none) := by
  unfold recursive_graph_mapping
  simp [h]

theorem recMap_eq_visited (fetch : String → Option (List String)) (incl : Bool)
    (maxd : Nat) (t : String) (st : CrawlState) (d : Nat) (h1 : ¬ maxd < d)
    (h2 : t ∈ st.visited) :
    recursive_graph_mapping fetch incl maxd t st d = (st, none) := by
  unfold recursive_graph_mapping
  simp [h1, h2]


theorem recMap_eq_fetch_none_true (fetch : String → Option (List String))
    (maxd : Nat) (t : String) (st : CrawlState) (d : Nat) (h1 : ¬ maxd < d)
    (h2 : t ∉ st.visited) (hf : fetch t = none) :
    recursive_graph_mapping fetch true maxd t st d =
      ({ markState t st d with graph := (add_error_node (markState t st d).graph t).1 },
        (add_error_node (markState t st d).graph t).2) := by
  unfold recursive_graph_mapping
  simp [h1, h2, hf, markState]

theorem recMap_eq_fetch_none_false (fetch : String → Option (List String))
    (maxd : Nat) (t : String) (st : CrawlState) (d : Nat) (h1 : ¬ maxd < d)
    (h2 : t ∉ st.visited) (hf : fetch t = none) :
    recursive_graph_mapping fetch false maxd t st d = (markState t st d, none) := by
  unfold recursive_graph_mapping
  simp [h1, h2, hf, markState]

theorem recMap_eq_fetch_some (fetch : String → Option (List String)) (incl : Bool)
    (maxd : Nat) (t : String) (st : CrawlState) (d : Nat) (h1 : ¬ maxd < d)
    (h2 : t ∉ st.visited) (links : List String) (hf : fetch t = some links) :
    recursive_graph_mapping fetch incl maxd t st d =
      mapping_links fetch incl maxd t d links (markState t st d) := by
  unfold recursive_graph_mapping
  simp [h1, h2, hf, markState]

theorem mapping_links_nil (fetch : String → Option (List String)) (incl : Bool)
    (maxd : Nat) (t : String) (d : Nat) (st : CrawlState) :
    mapping_links fetch incl maxd t d [] st = (st, none) := by
  unfold mapping_links
  rfl

theorem mapping_links_cons_err (fetch : String → Option (List String)) (incl : Bool)
    (maxd : Nat) (t : String) (d : Nat) (l : String) (rest : List String)
    (st : CrawlState) (g : WikiGraph) (e : GraphError)
    (heq : add_link st.graph t l = (g, some e)) :
    mapping_links fetch incl maxd t d (l :: rest) st = ({ st with graph := g }, some e) := by
  unfold mapping_links
  simp [heq]

theorem mapping_links_cons_rec (fetch : String → Option (List String)) (incl : Bool)
    (maxd : Nat) (t : String) (d : Nat) (l : String) (rest : List String)
    (st : CrawlState) (g : WikiGraph) (heq : add_link st.graph t l = (g, none))
    (hg : l ∉ st.visited ∧ d < maxd) :
    mapping_links fetch incl maxd t d (l :: rest) st =
      match recursive_graph_mapping fetch incl maxd l { st with graph := g } (d + 1) with
      | (st2, some e) => (st2, some e)
      | (st2, none) => mapping_links fetch incl maxd t d rest st2 := by
  conv_lhs => unfold mapping_links
  simp only [heq]
  rw [if_pos hg]

theorem mapping_links_cons_norec (fetch : String → Option (List String)) (incl : Bool)
    (maxd : Nat) (t : String) (d : Nat) (l : String) (rest : List String)
    (st : CrawlState) (g : WikiGraph) (heq : add_link st.graph t l = (g, none))
    (hg : ¬(l ∉ st.visited ∧ d < maxd)) :
    mapping_links fetch incl maxd t d (l :: rest) st =
      mapping_links fetch incl maxd t d rest { st with graph := g } := by
  conv_lhs => unfold mapping_links
  simp only [heq]
  rw [if_neg hg]

/-- The recursive exploration only mutates the graph through store
operations, so it preserves the structural store invariant. -/
theorem crawl_storeInv (fetch : String → Option (List String)) (incl : Bool) (maxd : Nat) :
    ∀ t st d, StoreInv st.graph →
      StoreInv (recursive_graph_mapping fetch incl maxd t st d).1.graph := by
  refine recursive_graph_mapping.induct fetch incl maxd
    (fun t st d => StoreInv st.graph →
      StoreInv (recursive_graph_mapping fetch incl maxd t st d).1.graph)
    (fun t d links st => StoreInv st.graph →
      StoreInv (mapping_links fetch incl maxd t d links st).1.graph)
    ?_ ?_ ?_ ?_ ?_ ?_ ?_ ?_ ?_ ?_
  · intro t st d h1 hinv
    rw [recMap_eq_depth fetch incl maxd t st d h1]
    exact hinv
  · intro t st d h1 h2 hinv
    rw [recMap_eq_visited fetch incl maxd t st d h1 h2]
    exact hinv
  · intro t st d h1 h2 st1 hf hincl g r heq hinv
    subst hincl
    rw [recMap_eq_fetch_none_true fetch maxd t st d h1 h2 hf]
    exact storeInv_add_error_node (storeInv_update_metrics hinv d) t
  · intro t st d h1 h2 hf hincl hinv
    have hfalse : incl = false := by
      cases incl
      · rfl
      · exact absurd rfl hincl
    subst hfalse
    rw [recMap_eq_fetch_none_false fetch maxd t st d h1 h2 hf]
    exact storeInv_update_metrics hinv d
  · intro t st d h1 h2 st1 links hf ih hinv
    rw [recMap_eq_fetch_some fetch incl maxd t st d h1 h2 links hf]
    exact ih (storeInv_update_metrics hinv d)
  · intro t d st hinv
    rw [mapping_links_nil]
    exact hinv
  · intro t d st l rest g e heq hinv
    rw [mapping_links_cons_err fetch incl maxd t d l rest st g e heq]
    have h2 := storeInv_add_link hinv t l
    rwa [heq] at h2
  · intro t d st l rest g heq st1 hg st2 e hrec ih1 hinv
    rw [mapping_links_cons_rec fetch incl maxd t d l rest st g heq hg, hrec]
    have hstg : StoreInv g := by
      have h2 := storeInv_add_link hinv t l
      rwa [heq] at h2
    have h3 := ih1 hstg
    rwa [hrec] at h3
  · intro t d st l rest g heq st1 hg st2 hrec ih1 ih2 hinv
    rw [mapping_links_cons_rec fetch incl maxd t d l rest st g heq hg, hrec]
    have hstg : StoreInv g := by
      have h2 := storeInv_add_link hinv t l
      rwa [heq] at h2
    have h3 := ih1 hstg
    rw [hrec] at h3
    exact ih2 h3
  · intro t d st l rest g heq st1 hg ih hinv
    rw [mapping_links_cons_norec fetch incl maxd t d l rest st g heq hg]
    have hstg : StoreInv g := by
      have h2 := storeInv_add_link hinv t l
      rwa [heq] at h2
    exact ih hstg

/-! ### Node-title accounting over operation sequences -/


theorem add_node_keys (g : WikiGraph) (t : String) (e : Bool) (m : Metadata)
    (ht : t ≠ "") (u : String) :
    (((add_node g t e m).1.get_node u).isSome) ↔ ((g.get_node u).isSome ∨ u = t) := by
  cases hl : lookupNode g.nodes t with
  | some n =>
    have hsame : (add_node g t e m).1 = g := by simp [add_node, ht, hl]
    rw [hsame]
    constructor
    · exact Or.inl
    · rintro (h | rfl)
      · exact h
      · show (lookupNode g.nodes u).isSome
        rw [hl]; rfl
  | none =>
    have hins : (add_node g t e m).1 =
        { g with
            nodes := g.nodes ++ [(t, { title := t, is_error := e, metadata := m })],
            total_nodes := g.total_nodes + 1,
            error_count := g.error_count + (if e then 1 else 0) } := by
      simp [add_node, ht, hl]
    rw [hins]
    show (lookupNode (g.nodes ++ _) u).isSome ↔ _
    rw [lookupNode_append]
    cases hu : lookupNode g.nodes u with
    | some n2 => simp [WikiGraph.get_node, hu]
    | none =>
      simp only [WikiGraph.get_node, hu]
      by_cases he : t = u
      · simp [lookupNode, he]
      · simp [lookupNode, he, Ne.symm he]

theorem add_relationship_nodes (g : WikiGraph) (s t r : String) (m : Metadata) :
    (add_relationship g s t r m).1.nodes = g.nodes := by
  rcases add_relationship_cases g s t r m with heq | ⟨_, _, heq⟩ <;> rw [heq]

theorem add_link_keys (g : WikiGraph) (s t : String) (ht : t ≠ "") (u : String) :
    (((add_link g s t).1.get_node u).isSome) ↔ ((g.get_node u).isSome ∨ u = t) := by
  rcases h1 : add_node g t with ⟨g1, r1⟩
  have hk : (g1.get_node u).isSome ↔ ((g.get_node u).isSome ∨ u = t) := by
    have := add_node_keys g t false [] ht u
    rwa [h1] at this
  cases r1 with
  | error e => simpa [add_link, h1] using hk
  | ok n =>
    rcases h2 : add_relationship g1 s t "LINKS_TO" with ⟨g2, r2⟩
    have hn2 : g2.nodes = g1.nodes := by
      have := add_relationship_nodes g1 s t "LINKS_TO" []
      rwa [h2] at this
    have hk2 : (g2.get_node u).isSome ↔ ((g.get_node u).isSome ∨ u = t) := by
      rw [show g2.get_node u = g1.get_node u by simp [WikiGraph.get_node, hn2]]
      exact hk
    cases r2 <;> simpa [add_link, h1, h2] using hk2

theorem add_error_node_keys (g : WikiGraph) (s : String) (u : String) :
    (((add_error_node g s).1.get_node u).isSome) ↔
      ((g.get_node u).isSome ∨ u = "[ERROR] " ++ s) := by
  rcases h1 : add_node g ("[ERROR] " ++ s) true with ⟨g1, r1⟩
  have hk : (g1.get_node u).isSome ↔ ((g.get_node u).isSome ∨ u = "[ERROR] " ++ s) := by
    have := add_node_keys g ("[ERROR] " ++ s) true [] (error_title_ne_empty s) u
    rwa [h1] at this
  cases r1 with
  | error e => simpa [add_error_node, h1] using hk
  | ok n =>
    rcases h2 : add_relationship g1 s ("[ERROR] " ++ s) "ERROR" with ⟨g2, r2⟩
    have hn2 : g2.nodes = g1.nodes := by
      have := add_relationship_nodes g1 s ("[ERROR] " ++ s) "ERROR" []
      rwa [h2] at this
    have hk2 : (g2.get_node u).isSome ↔ ((g.get_node u).isSome ∨ u = "[ERROR] " ++ s) := by
      rw [show g2.get_node u = g1.get_node u by simp [WikiGraph.get_node, hn2]]
      exact hk
    cases r2 <;> simpa [add_error_node, h1, h2] using hk2

theorem applyOp_keys (g : WikiGraph) (op : Op)
    (hval : ∀ t ∈ opNodeTitles op, t ≠ "") (u : String) :
    (((applyOp g op).get_node u).isSome) ↔
      ((g.get_node u).isSome ∨ u ∈ opNodeTitles op) := by
  cases op with
  | opAddNode t e m =>
    have ht : t ≠ "" := hval t (by simp [opNodeTitles])
    simpa [applyOp, opNodeTitles] using add_node_keys g t e m ht u
  | opAddRelationship s t r m =>
    simp [applyOp, opNodeTitles, WikiGraph.get_node, add_relationship_nodes g s t r m]
  | opAddLink s t =>
    have ht : t ≠ "" := hval t (by simp [opNodeTitles])
    simpa [applyOp, opNodeTitles] using add_link_keys g s t ht u
  | opAddErrorNode s =>
    simpa [applyOp, opNodeTitles] using add_error_node_keys g s u
  | opUpdateMetrics d =>
    simp [applyOp, opNodeTitles, update_metrics, WikiGraph.get_node]

theorem runOps_keys (ops : List Op) :
    ∀ (g : WikiGraph) (passed : List String), StoreInv g →
      (∀ u, (g.get_node u).isSome ↔ u ∈ passed) →
      (∀ op ∈ ops, ∀ t ∈ opNodeTitles op, t ≠ "") →
      StoreInv (runOps g ops) ∧
        (∀ u, ((runOps g ops).get_node u).isSome ↔ u ∈ passed ++ ops.flatMap opNodeTitles) := by
  induction ops with
  | nil =>
    intro g passed hinv hiff hval
    refine ⟨hinv, ?_⟩
    simpa [runOps] using hiff
  | cons op rest ih =>
    intro g passed hinv hiff hval
    have hstep : runOps g (op :: rest) = runOps (applyOp g op) rest := rfl
    rw [hstep]
    have hiff2 : ∀ u, ((applyOp g op).get_node u).isSome ↔ u ∈ passed ++ opNodeTitles op := by
      intro u
      rw [applyOp_keys g op (hval op (by simp)) u, hiff u, List.mem_append]
    have hval2 : ∀ o ∈ rest, ∀ t ∈ opNodeTitles o, t ≠ "" := by
      intro o ho
      exact hval o (by simp [ho])
    have hres := ih (applyOp g op) (passed ++ opNodeTitles op)
      (storeInv_applyOp hinv op) hiff2 hval2
    refine ⟨hres.1, ?_⟩
    intro u
    rw [hres.2 u]
    simp [List.mem_append]

/-- Counting: a store-invariant graph whose keys are exactly the members
of `l` has exactly as many nodes as `l` has distinct members. -/
theorem storeInv_card {g : WikiGraph} (hinv : StoreInv g) (l : List String)
    (hiff : ∀ u, (g.get_node u).isSome ↔ u ∈ l) :
    g.nodes.length = l.toFinset.card := by
  have hkeys : ∀ u, u ∈ g.nodes.map Prod.fst ↔ u ∈ l := by
    intro u
    rw [← lookupNode_isSome_iff]
    exact hiff u
  have hfs : (g.nodes.map Prod.fst).toFinset = l.toFinset := by
    ext u
    simp only [List.mem_toFinset]
    exact hkeys u
  calc g.nodes.length = (g.nodes.map Prod.fst).length := by simp
    _ = (g.nodes.map Prod.fst).toFinset.card :=
        (List.toFinset_card_of_nodup hinv.keys_nodup).symm
    _ = l.toFinset.card := by rw [hfs]

/-- C2: node-count bookkeeping.  First: every graph returned by a
successful `map` call satisfies `total_nodes = len(nodes)`.  Second, more
generally: after any sequence of store operations on a freshly created
graph (with valid, i.e. nonempty, titles passed to the node-adding
operations), `total_nodes` equals the number of node entries, which
equals the number of distinct titles ever passed to the node-adding
operations (the root included). -/
theorem claim_C2 :
    (∀ (fetch : String → Option (List String)) (root_title : String) (max_depth : Int)
        (include_errors : Bool) (g : WikiGraph),
      map_page_graph fetch root_title max_depth include_errors = .ok g →
      g.total_nodes = g.nodes.length) ∧
    (∀ (root : String) (ops : List Op) (g0 : WikiGraph),
      create_graph root = .ok g0 →
      (∀ op ∈ ops, ∀ t ∈ opNodeTitles op, t ≠ "") →
      (runOps g0 ops).total_nodes = (runOps g0 ops).nodes.length ∧
      (runOps g0 ops).nodes.length = (root :: ops.flatMap opNodeTitles).toFinset.card) := by
  constructor
  · intro fetch root_title max_depth include_errors g h
    unfold map_page_graph at h
    by_cases hd : max_depth < 1
    · rw [if_pos hd] at h
      cases h
    · rw [if_neg hd] at h
      rcases hc : create_graph root_title with e | g1 <;> rw [hc] at h
      · cases h
      · dsimp only at h
        rcases hr : recursive_graph_mapping fetch include_errors max_depth.toNat root_title
            { graph := g1, visited := [], trace := [] } 1 with ⟨st, err⟩
        rw [hr] at h
        cases err with
        | some e => cases h
        | none =>
          dsimp only at h
          injection h with h
          subst h
          have hinv := crawl_storeInv fetch include_errors max_depth.toNat root_title
            { graph := g1, visited := [], trace := [] } 1 (storeInv_create hc)
          rw [hr] at hinv
          exact hinv.count_eq
  · intro root ops g0 hc hval
    have hroot : root ≠ "" := by
      intro hr
      rw [hr] at hc
      simp [create_graph] at hc
    rw [create_graph_ok hroot] at hc
    injection hc with hc
    have hbase : ∀ u, (g0.get_node u).isSome ↔ u ∈ [root] := by
      intro u
      subst hc
      show (lookupNode [(root, _)] u).isSome ↔ _
      by_cases hu : root = u
      · simp [lookupNode, hu]
      · simp [lookupNode, hu, Ne.symm hu]
    have hres := runOps_keys ops g0 [root] (storeInv_create (by rw [create_graph_ok hroot, hc]))
      hbase hval
    refine ⟨hres.1.count_eq, ?_⟩
    have hiff : ∀ u, ((runOps g0 ops).get_node u).isSome ↔ u ∈ root :: ops.flatMap opNodeTitles := by
      intro u
      rw [hres.2 u]
      simp
    exact storeInv_card hres.1 _ hiff

theorem claim_C2_witness :
    (runOps graphX [.opAddLink "X" "Y", .opAddNode "Y" false []]).total_nodes =
      (runOps graphX [.opAddLink "X" "Y", .opAddNode "Y" false []]).nodes.length ∧
    (runOps graphX [.opAddLink "X" "Y", .opAddNode "Y" false []]).nodes.length =
      (("X" : String) ::
        ([Op.opAddLink "X" "Y", Op.opAddNode "Y" false []].flatMap opNodeTitles)).toFinset.card :=
  claim_C2.2 "X" [.opAddLink "X" "Y", .opAddNode "Y" false []] graphX
    (by rw [create_graph_ok (by decide)]; rfl)
    (by decide)


/-- C5: the single failure mode of `map`.  Every call either returns a
graph or fails with `pageMappingServiceError` — no other error shape is
observable.  Moreover any exception escaping graph creation or the
recursive exploration is wrapped as the `cause` of that
`pageMappingServiceError`. -/
theorem claim_C5 (fetch : String → Option (List String)) (root_title : String)
    (max_depth : Int) (include_errors : Bool) :
    ((∃ g, map_page_graph fetch root_title max_depth include_errors = .ok g) ∨
      (∃ msg cause, map_page_graph fetch root_title max_depth include_errors =
        .error (.pageMappingServiceError msg cause))) ∧
    (∀ e, ¬ max_depth < 1 → create_graph root_title = .error e →
      map_page_graph fetch root_title max_depth include_errors =
        .error (.pageMappingServiceError "Page mapping failed" (some e))) ∧
    (∀ g0 st e, ¬ max_depth < 1 → create_graph root_title = .ok g0 →
      recursive_graph_mapping fetch include_errors max_depth.toNat root_title
        { graph := g0, visited := [], trace := [] } 1 = (st, some e) →
      map_page_graph fetch root_title max_depth include_errors =
        .error (.pageMappingServiceError "Page mapping failed" (some e))) := by
  refine ⟨?_, ?_, ?_⟩
  · by_cases hd : max_depth < 1
    · right
      exact ⟨"Depth must be at least 1", none, by simp [map_page_graph, hd]⟩
    · rcases hc : create_graph root_title with e | g0
      · right
        exact ⟨"Page mapping failed", some e, by simp [map_page_graph, hd, hc]⟩
      · rcases hr : recursive_graph_mapping fetch include_errors max_depth.toNat root_title
            { graph := g0, visited := [], trace := [] } 1 with ⟨st, err⟩
        cases err with
        | some e =>
          right
          exact ⟨"Page mapping failed", some e, by simp [map_page_graph, hd, hc, hr]⟩
        | none =>
          left
          exact ⟨st.graph, by simp [map_page_graph, hd, hc, hr]⟩
  · intro e hd hc
    simp [map_page_graph, hd, hc]
  · intro g0 st e hd hc hr
    simp [map_page_graph, hd, hc, hr]

theorem claim_C5_witness :
    map_page_graph emptyLinkFetch "X" 2 false =
      .error (.pageMappingServiceError "Page mapping failed"
        (some (.invalidTitleError "Invalid node title: "))) := by
  have hrec : recursive_graph_mapping emptyLinkFetch false 2 "X"
      { graph := graphX, visited := [], trace := [] } 1 =
      (markState "X" { graph := graphX, visited := [], trace := [] } 1,
        some (.invalidTitleError "Invalid node title: ")) := by
    rw [recMap_eq_fetch_some emptyLinkFetch false 2 "X"
      { graph := graphX, visited := [], trace := [] } 1 (by omega) (by simp) [""] rfl]
    rw [mapping_links_cons_err emptyLinkFetch false 2 "X" 1 "" []
      (markState "X" { graph := graphX, visited := [], trace := [] } 1)
      (markState "X" { graph := graphX, visited := [], trace := [] } 1).graph
      (.invalidTitleError "Invalid node title: ") rfl]
  exact (claim_C5 emptyLinkFetch "X" 2 false).2.2 graphX
    (markState "X" { graph := graphX, visited := [], trace := [] } 1)
    (.invalidTitleError "Invalid node title: ") (by omega)
    (by rw [create_graph_ok (by decide)]; rfl) hrec

/-- C9: depth-1 base case.  For a Link Source whose root links are
exactly `[A, B]` (three pairwise distinct, valid titles), a depth-1 map
returns the graph with exactly the nodes `{root, A, B}`, exactly the two
`LINKS_TO` edges from the root, and `max_depth_explored = 1`; the trace
being exactly `[root]` shows the links of `A` and `B` are never
fetched. -/
theorem claim_C9 (fetch : String → Option (List String)) (root A B : String)
    (hf : fetch root = some [A, B]) (hroot : root ≠ "") (hA : A ≠ "") (hB : B ≠ "")
    (hAr : A ≠ root) (hBr : B ≠ root) (hAB : A ≠ B) :
    ∃ st : CrawlState,
      recursive_graph_mapping fetch false 1 root
        { graph := rootGraph root, visited := [], trace := [] } 1 = (st, none) ∧
      map_page_graph fetch root 1 false = .ok st.graph ∧
      st.trace = [root] ∧
      st.graph.nodes = [(root, { title := root }), (A, { title := A }), (B, { title := B })] ∧
      st.graph.edges = [{ source := root, target := A, rel_type := "LINKS_TO", metadata := [] },
                        { source := root, target := B, rel_type := "LINKS_TO", metadata := [] }] ∧
      st.graph.max_depth_explored = 1 ∧
      (∀ u, (st.graph.get_node u).isSome ↔ (u = root ∨ u = A ∨ u = B)) := by
  have hA2 : (add_link (markState root { graph := rootGraph root, visited := [], trace := [] } 1).graph
      root A).2 = none := by
    simp [add_link, add_node, add_relationship, markState, update_metrics, rootGraph,
      lookupNode, hA, hroot, hAr, Ne.symm hAr]
  have hB2 : (add_link ({ markState root { graph := rootGraph root, visited := [], trace := [] } 1 with
      graph := (add_link (markState root { graph := rootGraph root, visited := [], trace := [] } 1).graph
        root A).1 } : CrawlState).graph root B).2 = none := by
    simp [add_link, add_node, add_relationship, markState, update_metrics, rootGraph,
      lookupNode, hA, hB, hroot, hAr, hBr, hAB, Ne.symm hAr, Ne.symm hBr, Ne.symm hAB]
  have hrun : recursive_graph_mapping fetch false 1 root
      { graph := rootGraph root, visited := [], trace := [] } 1 =
      ({ markState root { graph := rootGraph root, visited := [], trace := [] } 1 with
          graph := (add_link ({ markState root { graph := rootGraph root, visited := [], trace := [] } 1 with
            graph := (add_link (markState root
              { graph := rootGraph root, visited := [], trace := [] } 1).graph root A).1 } :
                CrawlState).graph root B).1 }, none) := by
    rw [recMap_eq_fetch_some fetch false 1 root
      { graph := rootGraph root, visited := [], trace := [] } 1 (by omega) (by simp) [A, B] hf]
    rw [mapping_links_cons_norec fetch false 1 root 1 A [B]
      (markState root { graph := rootGraph root, visited := [], trace := [] } 1)
      ((add_link (markState root { graph := rootGraph root, visited := [], trace := [] } 1).graph
        root A).1)
      (Prod.ext rfl hA2) (by simp)]
    rw [mapping_links_cons_norec fetch false 1 root 1 B []
      ({ markState root { graph := rootGraph root, visited := [], trace := [] } 1 with
        graph := (add_link (markState root
          { graph := rootGraph root, visited := [], trace := [] } 1).graph root A).1 })
      ((add_link ({ markState root { graph := rootGraph root, visited := [], trace := [] } 1 with
        graph := (add_link (markState root
          { graph := rootGraph root, visited := [], trace := [] } 1).graph root A).1 } :
            CrawlState).graph root B).1)
      (Prod.ext rfl hB2) (by simp)]
    rw [mapping_links_nil]
  refine ⟨_, hrun, ?_, ?_, ?_, ?_, ?_, ?_⟩
  · unfold map_page_graph
    rw [if_neg (by omega : ¬(1 : Int) < 1)]
    rw [create_graph_ok hroot]
    dsimp only
    rw [show ((1 : Int)).toNat = 1 from rfl, hrun]
  · simp [markState]
  · simp [add_link, add_node, add_relationship, markState, update_metrics, rootGraph,
      lookupNode, hA, hB, hroot, hAr, hBr, hAB, Ne.symm hAr, Ne.symm hBr, Ne.symm hAB]
  · simp [add_link, add_node, add_relationship, markState, update_metrics, rootGraph,
      lookupNode, hA, hB, hroot, hAr, hBr, hAB, Ne.symm hAr, Ne.symm hBr, Ne.symm hAB]
  · simp [add_link, add_node, add_relationship, markState, update_metrics, rootGraph,
      lookupNode, hA, hB, hroot, hAr, hBr, hAB, Ne.symm hAr, Ne.symm hBr, Ne.symm hAB]
  · intro u
    have hnodes : (add_link ({ markState root
        { graph := rootGraph root, visited := [], trace := [] } 1 with
        graph := (add_link (markState root
          { graph := rootGraph root, visited := [], trace := [] } 1).graph root A).1 } :
            CrawlState).graph root B).1.nodes =
        [(root, { title := root }), (A, { title := A }), (B, { title := B })] := by
      simp [add_link, add_node, add_relationship, markState, update_metrics, rootGraph,
        lookupNode, hA, hB, hroot, hAr, hBr, hAB, Ne.symm hAr, Ne.symm hBr, Ne.symm hAB]
    show (lookupNode _ u).isSome ↔ _
    rw [hnodes]
    by_cases h1 : root = u
    · simp [lookupNode, h1]
    · by_cases h2 : A = u
      · simp [lookupNode, h1, h2]
      · by_cases h3 : B = u
        · simp [lookupNode, h1, h2, h3]
        · simp [lookupNode, h1, h2, h3, Ne.symm h1, Ne.symm h2, Ne.symm h3]

/-- C3: error-node policy.  Scenario: the root `R` links exactly to `P`,
and the Link Source raises for `P` (the titles are valid, distinct, and
`R` is not the error-marker title of `P`); `max_depth = 2` so `P` is
reached and expanded.  With `include_errors = true` the returned graph
contains the node titled `"[ERROR] " ++ P` with `is_error = true` and an
`ERROR` edge from `P` to it; with `include_errors = false` no error node
and no `ERROR` edge exist.  In both cases the call succeeds (the crawl
does not abort), the trace is exactly `[R, P]` (the failure is recorded
and `P`'s branch is not expanded further), and the node set is exactly
the stated one. -/
theorem claim_C3 (fetch : String → Option (List String)) (R P : String)
    (hfR : fetch R = some [P]) (hfP : fetch P = none)
    (hR : R ≠ "") (hP : P ≠ "") (hPR : P ≠ R) (hER : "[ERROR] " ++ P ≠ R) :
    (∃ st : CrawlState,
      recursive_graph_mapping fetch true 2 R
        { graph := rootGraph R, visited := [], trace := [] } 1 = (st, none) ∧
      map_page_graph fetch R 2 true = .ok st.graph ∧
      st.trace = [R, P] ∧
      st.graph.get_node ("[ERROR] " ++ P) =
        some { title := "[ERROR] " ++ P, is_error := true, metadata := [] } ∧
      ({ source := P, target := "[ERROR] " ++ P, rel_type := "ERROR",
          metadata := [] } : WikiEdge) ∈ st.graph.edges ∧
      (∀ u, (st.graph.get_node u).isSome ↔ (u = R ∨ u = P ∨ u = "[ERROR] " ++ P))) ∧
    (∃ st : CrawlState,
      recursive_graph_mapping fetch false 2 R
        { graph := rootGraph R, visited := [], trace := [] } 1 = (st, none) ∧
      map_page_graph fetch R 2 false = .ok st.graph ∧
      st.trace = [R, P] ∧
      (∀ p ∈ st.graph.nodes, p.2.is_error = false) ∧
      (∀ e ∈ st.graph.edges, e.rel_type ≠ "ERROR") ∧
      (∀ u, (st.graph.get_node u).isSome ↔ (u = R ∨ u = P))) := by
  have hadd : (add_link (markState R { graph := rootGraph R, visited := [], trace := [] } 1).graph
      R P).2 = none := by
    simp [add_link, add_node, add_relationship, markState, update_metrics, rootGraph,
      lookupNode, hR, hP, hPR, Ne.symm hPR]
  constructor
  · have hrecP : recursive_graph_mapping fetch true 2 P
        ({ markState R { graph := rootGraph R, visited := [], trace := [] } 1 with
          graph := (add_link (markState R
            { graph := rootGraph R, visited := [], trace := [] } 1).graph R P).1 }) (1 + 1) =
        ({ markState P ({ markState R { graph := rootGraph R, visited := [], trace := [] } 1 with
            graph := (add_link (markState R
              { graph := rootGraph R, visited := [], trace := [] } 1).graph R P).1 }) (1 + 1) with
          graph := (add_error_node (markState P
            ({ markState R { graph := rootGraph R, visited := [], trace := [] } 1 with
              graph := (add_link (markState R
                { graph := rootGraph R, visited := [], trace := [] } 1).graph R P).1 })
            (1 + 1)).graph P).1 }, none) := by
      rw [recMap_eq_fetch_none_true fetch 2 P _ (1 + 1) (by omega)
        (by simp [markState, hPR]) hfP]
      refine Prod.ext rfl ?_
      simp [add_error_node, add_node, add_relationship, add_link, markState, update_metrics,
        rootGraph, lookupNode, hR, hP, hPR, Ne.symm hPR, hER, Ne.symm hER,
        error_title_ne_empty P, error_title_ne_self P, Ne.symm (error_title_ne_self P)]
    have hrun : recursive_graph_mapping fetch true 2 R
        { graph := rootGraph R, visited := [], trace := [] } 1 =
        ({ markState P ({ markState R { graph := rootGraph R, visited := [], trace := [] } 1 with
            graph := (add_link (markState R
              { graph := rootGraph R, visited := [], trace := [] } 1).graph R P).1 }) (1 + 1) with
          graph := (add_error_node (markState P
            ({ markState R { graph := rootGraph R, visited := [], trace := [] } 1 with
              graph := (add_link (markState R
                { graph := rootGraph R, visited := [], trace := [] } 1).graph R P).1 })
            (1 + 1)).graph P).1 }, none) := by
      rw [recMap_eq_fetch_some fetch true 2 R
        { graph := rootGraph R, visited := [], trace := [] } 1 (by omega) (by simp) [P] hfR]
      rw [mapping_links_cons_rec fetch true 2 R 1 P []
        (markState R { graph := rootGraph R, visited := [], trace := [] } 1)
        ((add_link (markState R
          { graph := rootGraph R, visited := [], trace := [] } 1).graph R P).1)
        (Prod.ext rfl hadd) ⟨by simp [markState, hPR], by omega⟩]
      rw [hrecP]
      dsimp only
      rw [mapping_links_nil]
    refine ⟨_, hrun, ?_, ?_, ?_, ?_, ?_⟩
    · unfold map_page_graph
      rw [if_neg (by omega : ¬(2 : Int) < 1)]
      rw [create_graph_ok hR]
      dsimp only
      rw [show ((2 : Int)).toNat = 2 from rfl, hrun]
    · simp [markState]
    · simp [add_error_node, add_node, add_relationship, add_link, markState, update_metrics,
        rootGraph, lookupNode, WikiGraph.get_node, hR, hP, hPR, Ne.symm hPR, hER, Ne.symm hER,
        error_title_ne_empty P, error_title_ne_self P, Ne.symm (error_title_ne_self P)]
    · simp [add_error_node, add_node, add_relationship, add_link, markState, update_metrics,
        rootGraph, lookupNode, hR, hP, hPR, Ne.symm hPR, hER, Ne.symm hER,
        error_title_ne_empty P, error_title_ne_self P, Ne.symm (error_title_ne_self P)]
    · intro u
      have hnodes : (add_error_node (markState P
          ({ markState R { graph := rootGraph R, visited := [], trace := [] } 1 with
            graph := (add_link (markState R
              { graph := rootGraph R, visited := [], trace := [] } 1).graph R P).1 })
          (1 + 1)).graph P).1.nodes =
          [(R, { title := R }), (P, { title := P }),
            ("[ERROR] " ++ P, { title := "[ERROR] " ++ P, is_error := true, metadata := [] })] := by
        simp [add_error_node, add_node, add_relationship, add_link, markState, update_metrics,
          rootGraph, lookupNode, hR, hP, hPR, Ne.symm hPR, hER, Ne.symm hER,
          error_title_ne_empty P, error_title_ne_self P, Ne.symm (error_title_ne_self P)]
      show (lookupNode _ u).isSome ↔ _
      rw [hnodes]
      by_cases h1 : R = u
      · simp [lookupNode, h1]
      · by_cases h2 : P = u
        · simp [lookupNode, h1, h2]
        · by_cases h3 : "[ERROR] " ++ P = u
          · simp [lookupNode, h1, h2, h3]
          · simp [lookupNode, h1, h2, h3, Ne.symm h1, Ne.symm h2, Ne.symm h3]
  · have hrecP : recursive_graph_mapping fetch false 2 P
        ({ markState R { graph := rootGraph R, visited := [], trace := [] } 1 with
          graph := (add_link (markState R
            { graph := rootGraph R, visited := [], trace := [] } 1).graph R P).1 }) (1 + 1) =
        (markState P ({ markState R { graph := rootGraph R, visited := [], trace := [] } 1 with
          graph := (add_link (markState R
            { graph := rootGraph R, visited := [], trace := [] } 1).graph R P).1 }) (1 + 1),
          none) := by
      exact recMap_eq_fetch_none_false fetch 2 P _ (1 + 1) (by omega)
        (by simp [markState, hPR]) hfP
    have hrun : recursive_graph_mapping fetch false 2 R
        { graph := rootGraph R, visited := [], trace := [] } 1 =
        (markState P ({ markState R { graph := rootGraph R, visited := [], trace := [] } 1 with
          graph := (add_link (markState R
            { graph := rootGraph R, visited := [], trace := [] } 1).graph R P).1 }) (1 + 1),
          none) := by
      rw [recMap_eq_fetch_some fetch false 2 R
        { graph := rootGraph R, visited := [], trace := [] } 1 (by omega) (by simp) [P] hfR]
      rw [mapping_links_cons_rec fetch false 2 R 1 P []
        (markState R { graph := rootGraph R, visited := [], trace := [] } 1)
        ((add_link (markState R
          { graph := rootGraph R, visited := [], trace := [] } 1).graph R P).1)
        (Prod.ext rfl hadd) ⟨by simp [markState, hPR], by omega⟩]
      rw [hrecP]
      dsimp only
      rw [mapping_links_nil]
    refine ⟨_, hrun, ?_, ?_, ?_, ?_, ?_⟩
    · unfold map_page_graph
      rw [if_neg (by omega : ¬(2 : Int) < 1)]
      rw [create_graph_ok hR]
      dsimp only
      rw [show ((2 : Int)).toNat = 2 from rfl, hrun]
    · simp [markState]
    · simp [add_node, add_relationship, add_link, markState, update_metrics,
        rootGraph, lookupNode, hR, hP, hPR, Ne.symm hPR]
    · simp [add_node, add_relationship, add_link, markState, update_metrics,
        rootGraph, lookupNode, hR, hP, hPR, Ne.symm hPR]
    · intro u
      have hnodes : (markState P
          ({ markState R { graph := rootGraph R, visited := [], trace := [] } 1 with
            graph := (add_link (markState R
              { graph := rootGraph R, visited := [], trace := [] } 1).graph R P).1 })
          (1 + 1)).graph.nodes = [(R, { title := R }), (P, { title := P })] := by
        simp [add_node, add_relationship, add_link, markState, update_metrics,
          rootGraph, lookupNode, hR, hP, hPR, Ne.symm hPR]
      show (lookupNode _ u).isSome ↔ _
      rw [hnodes]
      by_cases h1 : R = u
      · simp [lookupNode, h1]
      · by_cases h2 : P = u
        · simp [lookupNode, h1, h2]
        · simp [lookupNode, h1, h2, Ne.symm h1, Ne.symm h2]

/-! ### Success and monotonicity lemmas for the composite store operations -/

/-- `add_node` followed by `add_relationship` succeeds whenever the source
exists and both titles are valid; the node insertion is monotone on the
key set and the edge list gains exactly the one new edge. -/
theorem add_node_then_rel (g : WikiGraph) (s t rel : String) (e : Bool) (hs : s ≠ "")
    (hsm : (g.get_node s).isSome) (ht : t ≠ "") :
    ∃ g1 n, add_node g t e [] = (g1, .ok n) ∧
      g1.edges = g.edges ∧
      (∀ u, (g.get_node u).isSome → (g1.get_node u).isSome) ∧
      (g1.get_node t).isSome ∧
      add_relationship g1 s t rel =
        ({ g1 with edges := g1.edges ++
            [{ source := s, target := t, rel_type := rel, metadata := [] }] },
          .ok { source := s, target := t, rel_type := rel, metadata := [] }) := by
  have hs0 : (lookupNode g.nodes s).isSome := hsm
  cases hl : lookupNode g.nodes t with
  | some n =>
    refine ⟨g, n, by simp [add_node, ht, hl], rfl, fun u hu => hu, by
      show (lookupNode g.nodes t).isSome
      rw [hl]; rfl, ?_⟩
    have h1 : ¬(lookupNode g.nodes s).isNone := by
      simp only [Option.isNone_iff_eq_none]
      intro hc
      rw [hc] at hs0
      cases hs0
    have h2 : ¬(lookupNode g.nodes t).isNone := by
      simp [hl]
    simp [add_relationship, hs, ht, h1, h2]
  | none =>
    refine ⟨{ g with
        nodes := g.nodes ++ [(t, { title := t, is_error := e, metadata := [] })],
        total_nodes := g.total_nodes + 1,
        error_count := g.error_count + (if e then 1 else 0) },
      { title := t, is_error := e, metadata := [] }, by simp [add_node, ht, hl], rfl,
      ?_, ?_, ?_⟩
    · intro u hu
      show (lookupNode (g.nodes ++ _) u).isSome
      rw [lookupNode_append_of_isSome _ _ _ hu]
      exact hu
    · show (lookupNode (g.nodes ++ _) t).isSome
      rw [lookupNode_append_of_none _ _ _ hl]
      simp [lookupNode]
    · have h1 : ¬(lookupNode (g.nodes ++
          [(t, { title := t, is_error := e, metadata := [] })]) s).isNone := by
        rw [lookupNode_append_of_isSome _ _ _ hs0]
        simp only [Option.isNone_iff_eq_none]
        intro hc
        rw [hc] at hs0
        cases hs0
      have h2 : ¬(lookupNode (g.nodes ++
          [(t, { title := t, is_error := e, metadata := [] })]) t).isNone := by
        rw [lookupNode_append_of_none _ _ _ hl]
        simp [lookupNode]
      simp [add_relationship, hs, ht, h1, h2]

/-- `add_link` succeeds whenever the source node exists and both titles
are valid; it appends exactly one `LINKS_TO` edge and only grows the key
set. -/
theorem add_link_ok (g : WikiGraph) (s t : String) (hs : s ≠ "")
    (hsm : (g.get_node s).isSome) (ht : t ≠ "") :
    (add_link g s t).2 = none ∧
    (add_link g s t).1.edges = g.edges ++
      [{ source := s, target := t, rel_type := "LINKS_TO", metadata := [] }] ∧
    (∀ u, (g.get_node u).isSome → ((add_link g s t).1.get_node u).isSome) ∧
    ((add_link g s t).1.get_node t).isSome := by
  obtain ⟨g1, n, h1, hedges, hmono, hself, h2⟩ := add_node_then_rel g s t "LINKS_TO" false hs hsm ht
  refine ⟨?_, ?_, ?_, ?_⟩ <;> simp [add_link, h1, h2, WikiGraph.get_node] <;>
    simp [WikiGraph.get_node] at hedges hmono hself ⊢
  · rw [hedges]
  · intro u hu
    exact hmono u hu
  · exact hself

/-- `add_error_node` succeeds whenever the source node exists and its
title is valid; it appends exactly one `ERROR` edge and only grows the
key set. -/
theorem add_error_node_ok (g : WikiGraph) (s : String) (hs : s ≠ "")
    (hsm : (g.get_node s).isSome) :
    (add_error_node g s).2 = none ∧
    (add_error_node g s).1.edges = g.edges ++
      [{ source := s, target := "[ERROR] " ++ s, rel_type := "ERROR", metadata := [] }] ∧
    (∀ u, (g.get_node u).isSome → ((add_error_node g s).1.get_node u).isSome) := by
  obtain ⟨g1, n, h1, hedges, hmono, hself, h2⟩ :=
    add_node_then_rel g s ("[ERROR] " ++ s) "ERROR" true hs hsm (error_title_ne_empty s)
  refine ⟨?_, ?_, ?_⟩ <;> simp [add_error_node, h1, h2, WikiGraph.get_node] <;>
    simp [WikiGraph.get_node] at hedges hmono hself ⊢
  · rw [hedges]
  · intro u hu
    exact hmono u hu


theorem post_refl (fetch : String → Option (List String)) (st : CrawlState) :
    CrawlPost fetch st st :=
  { nodes_mono := fun _ h => h
    edges_mono := fun _ he => he
    visited_mono := fun _ hu => hu
    count_eq := fun _ => rfl
    nodup := id
    expanded := fun _ hu hnu => absurd hu hnu }

theorem post_trans {fetch : String → Option (List String)} {st1 st2 st3 : CrawlState}
    (a : CrawlPost fetch st1 st2) (b : CrawlPost fetch st2 st3) :
    CrawlPost fetch st1 st3 :=
  { nodes_mono := fun u h => b.nodes_mono u (a.nodes_mono u h)
    edges_mono := fun e he => b.edges_mono e (a.edges_mono e he)
    visited_mono := fun u hu => b.visited_mono u (a.visited_mono u hu)
    count_eq := fun u => by
      have h1 := a.count_eq u
      have h2 := b.count_eq u
      omega
    nodup := fun h => b.nodup (a.nodup h)
    expanded := fun u hu3 hnu1 lu hlu v hv => by
      by_cases h2 : u ∈ st2.visited
      · exact b.edges_mono _ (a.expanded u h2 hnu1 lu hlu v hv)
      · exact b.expanded u hu3 h2 lu hlu v hv }

/-- The marking step changes trace and visited in lockstep. -/
theorem mark_count (t : String) (st : CrawlState) (d : Nat) (u : String) :
    (markState t st d).trace.count u + st.visited.count u =
      st.trace.count u + (markState t st d).visited.count u := by
  simp only [markState, List.count_append, List.count_cons, List.count_nil]
  by_cases hu : u = t <;> simp [hu] <;> omega

/-- The master run lemma for the exploration: under a well-formed Link
Source (no empty link titles) and a valid, already-materialized current
title, the recursive exploration never raises, satisfies `CrawlPost`,
marks the current title when it is admissible, and — below the depth
bound — marks every link of the current page. -/
theorem crawl_run (fetch : String → Option (List String)) (incl : Bool) (maxd : Nat)
    (wf : ∀ t l, fetch t = some l → ∀ u ∈ l, u ≠ "") :
    ∀ t st d, t ≠ "" → (st.graph.get_node t).isSome →
      ∀ st' err, recursive_graph_mapping fetch incl maxd t st d = (st', err) →
        err = none ∧ CrawlPost fetch st st' ∧
        (¬ maxd < d → t ∉ st.visited → t ∈ st'.visited) ∧
        (¬ maxd < d → t ∉ st.visited → d < maxd →
          ∀ lt, fetch t = some lt → ∀ u ∈ lt, u ∈ st'.visited) := by
  refine recursive_graph_mapping.induct fetch incl maxd
    (fun t st d => t ≠ "" → (st.graph.get_node t).isSome →
      ∀ st' err, recursive_graph_mapping fetch incl maxd t st d = (st', err) →
        err = none ∧ CrawlPost fetch st st' ∧
        (¬ maxd < d → t ∉ st.visited → t ∈ st'.visited) ∧
        (¬ maxd < d → t ∉ st.visited → d < maxd →
          ∀ lt, fetch t = some lt → ∀ u ∈ lt, u ∈ st'.visited))
    (fun t d links st => t ≠ "" → (st.graph.get_node t).isSome → (∀ u ∈ links, u ≠ "") →
      ∀ st' err, mapping_links fetch incl maxd t d links st = (st', err) →
        err = none ∧ CrawlPost fetch st st' ∧
        (∀ u ∈ links,
          ({ source := t, target := u, rel_type := "LINKS_TO", metadata := [] } : WikiEdge)
            ∈ st'.graph.edges) ∧
        (d < maxd → ∀ u ∈ links, u ∈ st'.visited))
    ?_ ?_ ?_ ?_ ?_ ?_ ?_ ?_ ?_ ?_
  · -- depth bound exceeded
    intro t st d h1 ht hsm st' err heq
    rw [recMap_eq_depth fetch incl maxd t st d h1] at heq
    cases heq
    exact ⟨rfl, post_refl fetch st,
      fun hnd => absurd h1 hnd, fun hnd => absurd h1 hnd⟩
  · -- already visited
    intro t st d h1 h2 ht hsm st' err heq
    rw [recMap_eq_visited fetch incl maxd t st d h1 h2] at heq
    cases heq
    exact ⟨rfl, post_refl fetch st,
      fun _ hnv => absurd h2 hnv, fun _ hnv => absurd h2 hnv⟩
  · -- fetch failed, include_errors = true: attach the error node
    intro t st d h1 h2 st1 hf hincl g r heq ht hsm st' err hrun
    subst hincl
    rw [recMap_eq_fetch_none_true fetch maxd t st d h1 h2 hf] at hrun
    cases hrun
    obtain ⟨hz, hedges, hmono⟩ := add_error_node_ok (markState t st d).graph t ht hsm
    refine ⟨hz, ?_, fun _ _ => List.mem_cons_self t st.visited, ?_⟩
    · refine { nodes_mono := fun u hu => hmono u hu,
               edges_mono := fun e he => by
                 rw [show ({ markState t st d with
                     graph := (add_error_node (markState t st d).graph t).1 } :
                       CrawlState).graph.edges =
                     (add_error_node (markState t st d).graph t).1.edges from rfl, hedges]
                 exact List.mem_append.mpr (Or.inl he),
               visited_mono := fun u hu => List.mem_cons_of_mem t hu,
               count_eq := fun u => mark_count t st d u,
               nodup := fun hnd => List.nodup_cons.mpr ⟨h2, hnd⟩,
               expanded := ?_ }
      intro u hu hnu lu hlu v hv
      rcases List.mem_cons.mp hu with rfl | hu2
      · rw [hlu] at hf
        cases hf
      · exact absurd hu2 hnu
    · intro _ _ _ lt hlt
      rw [hlt] at hf
      cases hf
  · -- fetch failed, include_errors = false: just stop this branch
    intro t st d h1 h2 hf hincl ht hsm st' err hrun
    have hfalse : incl = false := by
      cases incl
      · rfl
      · exact absurd rfl hincl
    subst hfalse
    rw [recMap_eq_fetch_none_false fetch maxd t st d h1 h2 hf] at hrun
    cases hrun
    refine ⟨rfl, ?_, fun _ _ => List.mem_cons_self t st.visited, ?_⟩
    · refine { nodes_mono := fun u hu => hu,
               edges_mono := fun e he => he,
               visited_mono := fun u hu => List.mem_cons_of_mem t hu,
               count_eq := fun u => mark_count t st d u,
               nodup := fun hnd => List.nodup_cons.mpr ⟨h2, hnd⟩,
               expanded := ?_ }
      intro u hu hnu lu hlu v hv
      rcases List.mem_cons.mp hu with rfl | hu2
      · rw [hlu] at hf
        cases hf
      · exact absurd hu2 hnu
    · intro _ _ _ lt hlt
      rw [hlt] at hf
      cases hf
  · -- fetch succeeded: loop over the links
    intro t st d h1 h2 st1 links hf ih ht hsm st' err hrun
    rw [recMap_eq_fetch_some fetch incl maxd t st d h1 h2 links hf] at hrun
    obtain ⟨hz, hpost, hedges, hvis⟩ := ih ht hsm (wf t links hf) st' err hrun
    refine ⟨hz, ?_, ?_, ?_⟩
    · refine { nodes_mono := fun u hu => hpost.nodes_mono u hu,
               edges_mono := fun e he => hpost.edges_mono e he,
               visited_mono := fun u hu =>
                 hpost.visited_mono u (List.mem_cons_of_mem t hu),
               count_eq := fun u => by
                 have hc : st'.trace.count u + (markState t st d).visited.count u =
                     (markState t st d).trace.count u + st'.visited.count u :=
                   hpost.count_eq u
                 have hm := mark_count t st d u
                 omega,
               nodup := fun hnd =>
                 hpost.nodup (List.nodup_cons.mpr ⟨h2, hnd⟩),
               expanded := ?_ }
      intro u hu hnu lu hlu v hv
      by_cases hut : u = t
      · subst hut
        rw [hf] at hlu
        injection hlu with hlu
        subst hlu
        exact hedges v hv
      · refine hpost.expanded u hu ?_ lu hlu v hv
        intro hc
        rcases List.mem_cons.mp hc with h | h
        · exact hut h
        · exact hnu h
    · intro _ _
      exact hpost.visited_mono t (List.mem_cons_self t st.visited)
    · intro _ _ hdm lt hlt u hu
      rw [hf] at hlt
      injection hlt with hlt
      subst hlt
      exact hvis hdm u hu
  · -- empty link list
    intro t d st ht hsm hl st' err heq
    rw [mapping_links_nil] at heq
    cases heq
    exact ⟨rfl, post_refl fetch st, fun u hu => (List.not_mem_nil u hu).elim,
      fun _ u hu => (List.not_mem_nil u hu).elim⟩
  · -- add_link raised: impossible under the preconditions
    intro t d st l rest g e heq ht hsm hl st' err hrun
    have hok := (add_link_ok st.graph t l ht hsm (hl l (by simp))).1
    rw [heq] at hok
    cases hok
  · -- inner recursion raised: impossible under the preconditions
    intro t d st l rest g heq st1 hg st2 e hrec ih1 ht hsm hl st' err hrun
    obtain ⟨-, -, hmono, hself⟩ := add_link_ok st.graph t l ht hsm (hl l (by simp))
    rw [heq] at hself
    have := (ih1 (hl l (by simp)) hself st2 (some e) hrec).1
    cases this
  · -- inner recursion succeeded, continue with the remaining links
    intro t d st l rest g heq st1 hg st2 hrec ih1 ih2 ht hsm hl st' err hrun
    rw [mapping_links_cons_rec fetch incl maxd t d l rest st g heq hg, hrec] at hrun
    dsimp only at hrun
    obtain ⟨-, hge, hgmono, hgl⟩ := add_link_ok st.graph t l ht hsm (hl l (by simp))
    rw [heq] at hge hgmono hgl
    dsimp only at hge hgmono hgl
    obtain ⟨-, hpost1, hmark1, -⟩ := ih1 (hl l (by simp)) hgl st2 none hrec
    have hsm2 : (st2.graph.get_node t).isSome := hpost1.nodes_mono t (hgmono t hsm)
    obtain ⟨hz, hpost2, hedges2, hvis2⟩ :=
      ih2 ht hsm2 (fun u hu => hl u (by simp [hu])) st' err hrun
    have postA : CrawlPost fetch st ({ st with graph := g }) :=
      { nodes_mono := fun u hu => hgmono u hu
        edges_mono := fun e he => by
          rw [show ({ st with graph := g } : CrawlState).graph.edges = g.edges from rfl, hge]
          exact List.mem_append.mpr (Or.inl he)
        visited_mono := fun u hu => hu
        count_eq := fun u => rfl
        nodup := id
        expanded := fun u hu hnu => absurd hu hnu }
    refine ⟨hz, post_trans postA (post_trans hpost1 hpost2), ?_, ?_⟩
    · intro u hu
      rcases List.mem_cons.mp hu with rfl | hu2
      · have he0 : ({ source := t, target := u, rel_type := "LINKS_TO", metadata := [] } : WikiEdge) ∈ g.edges := by
          rw [hge]
          simp
        exact hpost2.edges_mono _ (hpost1.edges_mono _ he0)
      · exact hedges2 u hu2
    · intro hdm u hu
      rcases List.mem_cons.mp hu with rfl | hu2
      · have hm := hmark1 (by omega) hg.1
        exact hpost2.visited_mono _ hm
      · exact hvis2 hdm u hu2
  · -- link skipped (already visited, or at the depth bound)
    intro t d st l rest g heq st1 hg ih ht hsm hl st' err hrun
    rw [mapping_links_cons_norec fetch incl maxd t d l rest st g heq hg] at hrun
    obtain ⟨-, hge, hgmono, hgl⟩ := add_link_ok st.graph t l ht hsm (hl l (by simp))
    rw [heq] at hge hgmono hgl
    dsimp only at hge hgmono hgl
    obtain ⟨hz, hpost2, hedges2, hvis2⟩ :=
      ih ht (hgmono t hsm) (fun u hu => hl u (by simp [hu])) st' err hrun
    have postA : CrawlPost fetch st ({ st with graph := g }) :=
      { nodes_mono := fun u hu => hgmono u hu
        edges_mono := fun e he => by
          rw [show ({ st with graph := g } : CrawlState).graph.edges = g.edges from rfl, hge]
          exact List.mem_append.mpr (Or.inl he)
        visited_mono := fun u hu => hu
        count_eq := fun u => rfl
        nodup := id
        expanded := fun u hu hnu => absurd hu hnu }
    refine ⟨hz, post_trans postA hpost2, ?_, ?_⟩
    · intro u hu
      rcases List.mem_cons.mp hu with rfl | hu2
      · have he0 : ({ source := t, target := u, rel_type := "LINKS_TO", metadata := [] } : WikiEdge) ∈ g.edges := by
          rw [hge]
          simp
        exact hpost2.edges_mono _ he0
      · exact hedges2 u hu2
    · intro hdm u hu
      rcases List.mem_cons.mp hu with rfl | hu2
      · have hlv : u ∈ st.visited := by
          by_contra hc
          exact hg ⟨hc, hdm⟩
        exact hpost2.visited_mono u hlv
      · exact hvis2 hdm u hu2

/-- C1: cycle safety.  For any Link Source in which page `X` links to `Y`
and page `Y` links back to `X` (titles valid: the root is nonempty and no
fetched link title is empty), `map(X, max_depth := 5, include_errors :=
false)` terminates with a graph; the fetch trace of the crawl contains
`X` exactly once and `Y` exactly once (each page is expanded exactly
once), and the edge `Y → X` is present in the returned graph. -/
theorem claim_C1 (fetch : String → Option (List String)) (X Y : String)
    (lX lY : List String) (hfX : fetch X = some lX) (hfY : fetch Y = some lY)
    (hYl : Y ∈ lX) (hXl : X ∈ lY) (hX : X ≠ "")
    (wf : ∀ t l, fetch t = some l → ∀ u ∈ l, u ≠ "") :
    ∃ st : CrawlState,
      recursive_graph_mapping fetch false 5 X
        { graph := rootGraph X, visited := [], trace := [] } 1 = (st, none) ∧
      map_page_graph fetch X 5 false = .ok st.graph ∧
      st.trace.count X = 1 ∧ st.trace.count Y = 1 ∧
      ({ source := Y, target := X, rel_type := "LINKS_TO", metadata := [] } : WikiEdge)
        ∈ st.graph.edges := by
  rcases hrun : recursive_graph_mapping fetch false 5 X
    { graph := rootGraph X, visited := [], trace := [] } 1 with ⟨st, err⟩
  have hsm : (({ graph := rootGraph X, visited := [], trace := [] } :
      CrawlState).graph.get_node X).isSome := by
    simp [rootGraph, WikiGraph.get_node, lookupNode]
  obtain ⟨hz, hpost, hmark, hlinks⟩ :=
    crawl_run fetch false 5 wf X { graph := rootGraph X, visited := [], trace := [] } 1
      hX hsm st err hrun
  subst hz
  have hXv : X ∈ st.visited := hmark (by omega) (by simp)
  have hYv : Y ∈ st.visited := hlinks (by omega) (by simp) (by omega) lX hfX Y hYl
  have hnd : st.visited.Nodup := hpost.nodup (by simp)
  have hcount : ∀ u, st.trace.count u = st.visited.count u := by
    intro u
    have hc := hpost.count_eq u
    simpa using hc
  have hedge : ({ source := Y, target := X, rel_type := "LINKS_TO", metadata := [] } :
      WikiEdge) ∈ st.graph.edges :=
    hpost.expanded Y hYv (by simp) lY hfY X hXl
  refine ⟨st, rfl, ?_, ?_, ?_, hedge⟩
  · unfold map_page_graph
    rw [if_neg (by omega : ¬(5 : Int) < 1), create_graph_ok hX]
    dsimp only
    rw [show ((5 : Int)).toNat = 5 from rfl, hrun]
  · rw [hcount X]
    exact List.count_eq_one_of_mem hnd hXv
  · rw [hcount Y]
    exact List.count_eq_one_of_mem hnd hYv


theorem cycleFetch_wf : ∀ t l, cycleFetch t = some l → ∀ u ∈ l, u ≠ "" := by
  intro t l h u hu
  unfold cycleFetch at h
  split_ifs at h <;> injection h with h <;> subst h <;> simp at hu <;> subst hu <;> decide

theorem claim_C1_witness :
    ∃ st : CrawlState,
      recursive_graph_mapping cycleFetch false 5 "X"
        { graph := rootGraph "X", visited := [], trace := [] } 1 = (st, none) ∧
      map_page_graph cycleFetch "X" 5 false = .ok st.graph ∧
      st.trace.count "X" = 1 ∧ st.trace.count "Y" = 1 ∧
      ({ source := "Y", target := "X", rel_type := "LINKS_TO", metadata := [] } : WikiEdge)
        ∈ st.graph.edges :=
  claim_C1 cycleFetch "X" "Y" ["Y"] ["X"] (by decide) (by decide) (by decide) (by decide)
    (by decide) cycleFetch_wf


theorem claim_C9_witness :
    ∃ g : WikiGraph, map_page_graph depthOneFetch "root" 1 false = .ok g ∧
      g.nodes = [("root", { title := "root" }), ("A", { title := "A" }), ("B", { title := "B" })] ∧
      g.max_depth_explored = 1 := by
  obtain ⟨st, -, hmap, -, hnodes, -, hdepth, -⟩ :=
    claim_C9 depthOneFetch "root" "A" "B" (by decide) (by decide) (by decide) (by decide)
      (by decide) (by decide) (by decide)
  exact ⟨st.graph, hmap, hnodes, hdepth⟩


theorem claim_C3_witness :
    (∃ g : WikiGraph, map_page_graph failingFetch "R" 2 true = .ok g ∧
      g.get_node ("[ERROR] " ++ "P") =
        some { title := "[ERROR] " ++ "P", is_error := true, metadata := [] }) ∧
    (∃ g : WikiGraph, map_page_graph failingFetch "R" 2 false = .ok g ∧
      (∀ p ∈ g.nodes, p.2.is_error = false)) := by
  obtain ⟨h1, h2⟩ := claim_C3 failingFetch "R" "P" (by decide) (by decide) (by decide)
    (by decide) (by decide) (by decide)
  obtain ⟨st1, -, hm1, -, herr, -⟩ := h1
  obtain ⟨st2, -, hm2, -, hno, -⟩ := h2
  exact ⟨⟨st1.graph, hm1, herr⟩, ⟨st2.graph, hm2, hno⟩⟩
